import Mathlib

/-!
Verification of the resource-tree aggregation and rendering program
`aws-tree.py` (repository AWShole).  The Python program collects AWS
resource descriptions, folds them into a nested dictionary keyed by VPC
id, prunes empty branches (`clean_tree`), and renders the result either
as HTML (`generate_html_tree`) or as an indented ASCII tree
(`generate_ascii_tree`).

The embedding below models the Python value universe that actually flows
through the tree: scalars (strings, booleans, integers), lists, and
insertion-ordered dictionaries with string keys (assoc lists).
-/

set_option linter.unusedVariables false

/-- A Python scalar stored at a leaf of the resource tree: a string, a
boolean, or an integer. -/
inductive Scalar where
  | s (v : String)
  | b (v : Bool)
  | i (v : Int)

/-- A node of the dynamic tree built by `main`: a scalar leaf, a Python
list, or a Python dict (insertion-ordered association list with string
keys). -/
inductive Node where
  | leaf (v : Scalar)
  | list (xs : List Node)
  | dict (entries : List (String × Node))

/-- First-match lookup in an association list, mirroring Python dict
access (keys are unique in actual Python dicts). -/
def lookupNode : List (String × Node) → String → Option Node
  | [], _ => none
  | (k, v) :: rest, key => if k == key then some v else lookupNode rest key

/-- Python `key in dict`. -/
def containsKey (es : List (String × Node)) (key : String) : Bool :=
  (lookupNode es key).isSome

/-- Python `d[key] = v`: replace in place if the key exists, else append. -/
def setKey : List (String × Node) → String → Node → List (String × Node)
  | [], key, v => [(key, v)]
  | (k, w) :: rest, key, v =>
    if k == key then (k, v) :: rest else (k, w) :: setKey rest key v

/-- `d.get(key)` on a dict node; `none` on any other node. -/
def dictLookup : Node → String → Option Node
  | .dict es, key => lookupNode es key
  | _, _ => none

/-- Python truthiness of a tree value (`bool(x)`). -/
def truthy : Node → Bool
  | .leaf (.s v) => v != ""
  | .leaf (.b v) => v
  | .leaf (.i v) => v != 0
  | .list xs => !xs.isEmpty
  | .dict es => !es.isEmpty

/-- The deletion test of `clean_tree`: a value is removed from its parent
dict when it is an empty list (`isinstance(value, list) and not value`)
or a dict that is empty after its own recursive cleaning
(`isinstance(value, dict)` followed by `if not value`). -/
def isEmptyNode : Node → Bool
  | .list [] => true
  | .dict [] => true
  | _ => false

mutual
/-- Embedding of `clean_tree` (aws-tree.py lines 112-122) as a function.
The Python code mutates the dict passed to it: it recursively cleans
every dict value, then deletes the keys whose value is an empty list or
a dict left empty by the recursive cleaning.  Values of list or scalar
type are left untouched (the loop recurses only into dict values), and
deleting marked keys from a Python dict preserves the insertion order of
the remaining keys, which the interleaved filter below reproduces. -/
def clean_tree : Node → Node
  | .dict es => .dict (clean_entries es)
  | .list xs => .list xs
  | .leaf v => .leaf v

/-- The per-entry loop of `clean_tree`: clean dict values in place, then
drop the entries whose (cleaned) value is an empty list or empty dict. -/
def clean_entries : List (String × Node) → List (String × Node)
  | [] => []
  | (k, v) :: rest =>
    let v2 := clean_tree v
    if isEmptyNode v2 then clean_entries rest else (k, v2) :: clean_entries rest
end

mutual
theorem clean_tree_idem_aux : ∀ t, clean_tree (clean_tree t) = clean_tree t
  | .dict es => by simp [clean_tree, clean_entries_idem_aux es]
  | .list xs => rfl
  | .leaf v => rfl

theorem clean_entries_idem_aux :
    ∀ es, clean_entries (clean_entries es) = clean_entries es
  | [] => rfl
  | (k, v) :: rest => by
    by_cases h : isEmptyNode (clean_tree v) = true
    · simp [clean_entries, h, clean_entries_idem_aux rest]
    · simp only [clean_entries, h]
      simp [clean_tree_idem_aux v, h, clean_entries_idem_aux rest]
end

/-- Claim C7: pruning is idempotent — applying `clean_tree` twice to any
tree yields the same tree as applying it once. -/
theorem c7_clean_tree_idempotent (t : Node) :
    clean_tree (clean_tree t) = clean_tree t :=
  clean_tree_idem_aux t

mutual
/-- Recursive emptiness check over the whole tree, following the words of
the spec invariant: no internal (dict) node has zero children and no list
node is empty, at every depth, including inside the elements of list
nodes.  (The root itself is allowed to be empty: the spec's empty-input
scenario produces a root with zero children.) -/
def noEmptyDeep : Node → Bool
  | .dict es => noEmptyDeepEntries es
  | .list xs => noEmptyDeepList xs
  | .leaf _ => true

def noEmptyDeepEntries : List (String × Node) → Bool
  | [] => true
  | (_, v) :: rest => !isEmptyNode v && noEmptyDeep v && noEmptyDeepEntries rest

def noEmptyDeepList : List Node → Bool
  | [] => true
  | x :: rest => !isEmptyNode x && noEmptyDeep x && noEmptyDeepList rest
end

mutual
/-- Emptiness check restricted to the dict spine: every dict entry, at
every depth reachable through nested dicts only, has a non-empty value.
Contents of list nodes are not inspected (they are exactly what
`clean_tree` does not touch). -/
def dictSpineOk : Node → Bool
  | .dict es => dictSpineOkEntries es
  | _ => true

def dictSpineOkEntries : List (String × Node) → Bool
  | [] => true
  | (_, v) :: rest => !isEmptyNode v && dictSpineOk v && dictSpineOkEntries rest
end

/-- Claim C4 counterexample: `clean_tree` does not recurse into list
elements, so a dict node with zero children nested inside a non-empty
list survives pruning.  Input tree `{"A": [{}]}`: the list under `"A"` is
non-empty, hence kept unchanged, and the empty dict inside it remains. -/
theorem c4_counterexample_empty_dict_inside_list :
    noEmptyDeep (clean_tree (Node.dict [("A", Node.list [Node.dict []])])) = false := by
  rfl

mutual
theorem clean_tree_dictSpineOk_aux : ∀ t, dictSpineOk (clean_tree t) = true
  | .dict es => by simp [clean_tree, dictSpineOk, clean_entries_dictSpineOk_aux es]
  | .list xs => rfl
  | .leaf v => rfl

theorem clean_entries_dictSpineOk_aux :
    ∀ es, dictSpineOkEntries (clean_entries es) = true
  | [] => rfl
  | (k, v) :: rest => by
    by_cases h : isEmptyNode (clean_tree v) = true
    · simp [clean_entries, h, clean_entries_dictSpineOk_aux rest]
    · simp [clean_entries, h, dictSpineOkEntries, clean_tree_dictSpineOk_aux v,
        clean_entries_dictSpineOk_aux rest]
end

/-- Claim C4, amended: after pruning, no dict entry reachable through
nested dicts has an empty value (empty dict or empty list); the guarantee
does not extend inside list nodes, whose elements `clean_tree` leaves
untouched (see the counterexample, where an empty dict survives inside a
non-empty list). -/
theorem c4_amended_clean_dict_spine_no_empty (t : Node) :
    dictSpineOk (clean_tree t) = true :=
  clean_tree_dictSpineOk_aux t

mutual
/-- Modelled from the claim's words, for comparison with `clean_tree`:
pruning deletes only dict keys whose value is an empty list or a dict
that is empty after recursive cleaning; kept list and leaf values are
returned exactly as built, kept dict values are recursively cleaned. -/
def specPrune : Node → Node
  | .dict es => .dict (specPruneEntries es)
  | .list xs => .list xs
  | .leaf v => .leaf v

def specPruneEntries : List (String × Node) → List (String × Node)
  | [] => []
  | (k, v) :: rest =>
    match specKeepValue v with
    | none => specPruneEntries rest
    | some v2 => (k, v2) :: specPruneEntries rest

/-- Which value a dict entry keeps, per the claim: empty lists are
dropped; non-empty lists are kept exactly as built (elements included);
leaves are kept; dicts are recursively cleaned and dropped when the
result is empty. -/
def specKeepValue : Node → Option Node
  | .list [] => none
  | .list (x :: xs) => some (.list (x :: xs))
  | .leaf v => some (.leaf v)
  | .dict d =>
    match specPruneEntries d with
    | [] => none
    | e :: es => some (.dict (e :: es))
end

mutual
theorem clean_tree_spec_aux : ∀ t, clean_tree t = specPrune t
  | .dict es => by simp [clean_tree, specPrune, clean_entries_spec_aux es]
  | .list xs => rfl
  | .leaf v => rfl

theorem clean_entries_spec_aux : ∀ es, clean_entries es = specPruneEntries es
  | [] => rfl
  | (k, v) :: rest => by
    simp only [clean_entries, specPruneEntries]
    rw [clean_tree_spec_aux v, clean_entries_spec_aux rest]
    cases v with
    | leaf w => simp [specPrune, specKeepValue, isEmptyNode]
    | list xs =>
      cases xs with
      | nil => simp [specPrune, specKeepValue, isEmptyNode]
      | cons x xs => simp [specPrune, specKeepValue, isEmptyNode]
    | dict d =>
      simp only [specPrune, specKeepValue]
      cases h : specPruneEntries d with
      | nil => simp [isEmptyNode]
      | cons e es => simp [isEmptyNode]
end

/-- Claim C9: `clean_tree` deletes only dict keys whose value is an empty
list or a dict that is empty after recursive cleaning; elements inside a
non-empty list (including empty dicts nested there) are left exactly as
built.  Stated as equality with `specPrune`/`specKeepValue`, a second
definition written from the claim's words. -/
theorem c9_clean_tree_frame_spec (t : Node) : clean_tree t = specPrune t :=
  clean_tree_spec_aux t

/-! ## The collectors' record shapes and the tree builder (`main`) -/

/-- One entry of `list_event_source_mappings(...)`: the two fields the
program reads. -/
structure EventMapping where
  uuid : String
  eventSourceArn : String

/-- A VPC as consumed by the first loop of `main`: its id and its tags. -/
structure VpcRec where
  vpcId : String
  tags : List (String × String)

/-- A Lambda function as consumed by `main`: name, the optional
`VpcConfig.VpcId` (`function.get('VpcConfig', {}).get('VpcId')`),
runtime, and its event source mappings. -/
structure LambdaRec where
  functionName : String
  vpcId : Option String
  runtime : String
  mappings : List EventMapping

/-- A load balancer ("App Gateway") as consumed by `main`. -/
structure GatewayRec where
  loadBalancerName : String
  vpcId : Option String
  tags : List (String × String)

/-- A REST API ("API Gateway") as consumed by `main`. -/
structure ApiGatewayRec where
  apiId : String
  name : String

/-- An EC2 instance as consumed by `main`. -/
structure Ec2Rec where
  instanceId : String
  vpcId : String
  tags : List (String × String)

/-- An S3 bucket after `get_s3_bucket_info` succeeded for it. -/
structure BucketRec where
  name : String
  objectCount : Int
  publicAccess : Bool
  httpAccess : Bool
  encryptionEnabled : Bool

/-- An SNS topic with the result of `get_sns_encryption`. -/
structure SnsTopicRec where
  topicArn : String
  encryptionEnabled : Bool

/-- `f"https://console.aws.amazon.com/vpc/home?region={region}#vpcs:VpcId={vpc_id}"` -/
def vpcUrl (region vpcId : String) : String :=
  "https://console.aws.amazon.com/vpc/home?region=" ++ region ++ "#vpcs:VpcId=" ++ vpcId

/-- `f"https://console.aws.amazon.com/lambda/home?region={region}#/functions/{function_name}"` -/
def lambdaUrl (region name : String) : String :=
  "https://console.aws.amazon.com/lambda/home?region=" ++ region ++ "#/functions/" ++ name

/-- `f"https://console.aws.amazon.com/ec2/v2/home?region={region}#LoadBalancers:LoadBalancerName={gateway_name}"` -/
def gatewayUrl (region name : String) : String :=
  "https://console.aws.amazon.com/ec2/v2/home?region=" ++ region
    ++ "#LoadBalancers:LoadBalancerName=" ++ name

/-- `f"https://console.aws.amazon.com/apigateway/home?region={region}#/apis/{api_gateway_id}/resources"` -/
def apiGatewayUrl (region apiId : String) : String :=
  "https://console.aws.amazon.com/apigateway/home?region=" ++ region
    ++ "#/apis/" ++ apiId ++ "/resources"

/-- `f"https://console.aws.amazon.com/ec2/v2/home?region={region}#Instances:instanceId={instance_id}"` -/
def instanceUrl (region instanceId : String) : String :=
  "https://console.aws.amazon.com/ec2/v2/home?region=" ++ region
    ++ "#Instances:instanceId=" ++ instanceId

/-- `f"https://s3.console.aws.amazon.com/s3/buckets/{bucket_name}"` -/
def bucketUrl (name : String) : String :=
  "https://s3.console.aws.amazon.com/s3/buckets/" ++ name

/-- `f"https://{region}.console.aws.amazon.com/sns/v3/home?region={region}#/topic/{topic_arn}"` -/
def snsUrl (region topicArn : String) : String :=
  "https://" ++ region ++ ".console.aws.amazon.com/sns/v3/home?region=" ++ region
    ++ "#/topic/" ++ topicArn

/-- `f"https://{region}.console.aws.amazon.com/kinesis/home?region={region}#/streams/details/{stream}/details"` -/
def kinesisUrl (region stream : String) : String :=
  "https://" ++ region ++ ".console.aws.amazon.com/kinesis/home?region=" ++ region
    ++ "#/streams/details/" ++ stream ++ "/details"

/-- `f"https://{region}.console.aws.amazon.com/dynamodb/home?region={region}#tables:selected={table}"` -/
def dynamoUrl (region table : String) : String :=
  "https://" ++ region ++ ".console.aws.amazon.com/dynamodb/home?region=" ++ region
    ++ "#tables:selected=" ++ table

/-- SQS trigger console URL built inside `get_lambda_triggers`. -/
def sqsTriggerUrl (region queueName : String) : String :=
  "https://" ++ region ++ ".console.aws.amazon.com/sqs/v2/home?region=" ++ region
    ++ "#/queues/https%3A%2F%2Fsqs." ++ region ++ ".amazonaws.com%2F" ++ queueName

/-- `arn.split(':')[i]` (ARNs have at least six components). -/
def arnPart (arn : String) (i : Nat) : String :=
  (arn.splitOn ":").getD i ""

/-- `arn.split(':')[-1]`. -/
def arnLast (arn : String) : String :=
  ((arn.splitOn ":").getLast?).getD ""

/-- The per-mapping dict built by `get_lambda_triggers`: UUID and
EventSourceArn, plus a console URL for SQS, DynamoDB or Kinesis sources. -/
def triggerInfo (m : EventMapping) : Node :=
  let base := [("UUID", Node.leaf (.s m.uuid)),
               ("EventSourceArn", Node.leaf (.s m.eventSourceArn))]
  let arn := m.eventSourceArn
  if arn.startsWith "arn:aws:sqs:" then
    Node.dict (base ++ [("URL", Node.leaf (.s (sqsTriggerUrl (arnPart arn 3) (arnLast arn))))])
  else if arn.startsWith "arn:aws:dynamodb:" then
    Node.dict (base ++ [("URL", Node.leaf (.s (dynamoUrl (arnPart arn 3) (arnLast arn))))])
  else if arn.startsWith "arn:aws:kinesis:" then
    Node.dict (base ++ [("URL", Node.leaf (.s (kinesisUrl (arnPart arn 3) (arnLast arn))))])
  else
    Node.dict base

/-- Embedding of `get_lambda_triggers` (aws-tree.py lines 19-39): one
info dict per event source mapping; when the list would be empty the
function returns the one-element list `["None"]` instead
(`return triggers if triggers else ["None"]`). -/
def get_lambda_triggers (mappings : List EventMapping) : List Node :=
  let triggers := mappings.map triggerInfo
  if triggers.isEmpty then [Node.leaf (.s "None")] else triggers

/-- A tags dict (string-to-string) as a tree node. -/
def tagsNode (tags : List (String × String)) : Node :=
  Node.dict (tags.map fun kv => (kv.1, Node.leaf (.s kv.2)))

/-- The `function_info` dict built in `main` for every Lambda function:
runtime, triggers, console URL, and the derived risk flag
`is_red = function['Runtime'] != 'nodejs20.x'`. -/
def functionInfoNode (region : String) (f : LambdaRec) : Node :=
  Node.dict [("Runtime", Node.leaf (.s f.runtime)),
             ("Triggers", Node.list (get_lambda_triggers f.mappings)),
             ("URL", Node.leaf (.s (lambdaUrl region f.functionName))),
             ("is_red", Node.leaf (.b (f.runtime != "nodejs20.x")))]

/-- The `bucket_info` dict built in `main` for every S3 bucket; the risk
key is added only when `not encryption_enabled or http_access`. -/
def bucketInfoNode (b : BucketRec) : Node :=
  let base := [("URL", Node.leaf (.s (bucketUrl b.name))),
               ("Object Count", Node.leaf (.i b.objectCount)),
               ("Public Access", Node.leaf (.b b.publicAccess)),
               ("HTTP Access", Node.leaf (.b b.httpAccess)),
               ("Encryption Enabled", Node.leaf (.b b.encryptionEnabled))]
  Node.dict (if !b.encryptionEnabled || b.httpAccess
             then base ++ [("is_red", Node.leaf (.b true))]
             else base)

/-- The `topic_info` dict built in `main` for every SNS topic; the risk
key is added only when encryption is disabled. -/
def snsTopicNode (region : String) (s : SnsTopicRec) : Node :=
  let base := [("URL", Node.leaf (.s (snsUrl region s.topicArn))),
               ("Encryption Enabled", Node.leaf (.b s.encryptionEnabled))]
  Node.dict [(s.topicArn,
    Node.dict (if !s.encryptionEnabled
               then base ++ [("is_red", Node.leaf (.b true))]
               else base))]

/-- The root accumulation dict of `main` (insertion-ordered). -/
abbrev RootDict := List (String × Node)

/-- The `defaultdict` default for a VPC entry: pre-populated empty
buckets for each per-VPC resource kind. -/
def defaultVpcNode : Node :=
  Node.dict [("Tags", Node.dict []),
             ("Lambda Functions", Node.list []),
             ("App Gateways", Node.list []),
             ("API Gateways", Node.list []),
             ("EC2 Instances", Node.list [])]

/-- `tree[vpc_id]` on the defaultdict: create the default entry when the
key is missing. -/
def vivifyVpc (t : RootDict) (key : String) : RootDict :=
  if containsKey t key then t else t ++ [(key, defaultVpcNode)]

/-- `d[key] = v` where `d` is a dict-valued node. -/
def setInDict : Node → String → Node → Node
  | .dict es, key, v => .dict (setKey es key v)
  | n, _, _ => n

/-- `xs.append(x)` where `xs` is a list-valued node. -/
def listAppend : Node → Node → Node
  | .list xs, x => .list (xs ++ [x])
  | n, _ => n

/-- `tree[vpc][key] = v`. -/
def setUnder (t : RootDict) (vpc key : String) (v : Node) : RootDict :=
  t.map fun e => if e.1 == vpc then (e.1, setInDict e.2 key v) else e

/-- `tree[vpc][bucket].append(x)`. -/
def appendUnder (t : RootDict) (vpc bucket : String) (x : Node) : RootDict :=
  t.map fun e => if e.1 == vpc then (e.1, setInDict e.2 bucket
      (listAppend ((dictLookup e.2 bucket).getD (Node.list []))  x)) else e

/-- `tree[key].append(x)` at the root. -/
def rootAppend (t : RootDict) (key : String) (x : Node) : RootDict :=
  t.map fun e => if e.1 == key then (e.1, listAppend e.2 x) else e

/-- The VPC loop of `main`: vivify the VPC entry, store its tags and its
console URL. -/
def addVpc (region : String) (t : RootDict) (v : VpcRec) : RootDict :=
  let t1 := vivifyVpc t v.vpcId
  let t2 := setUnder t1 v.vpcId "Tags" (tagsNode v.tags)
  setUnder t2 v.vpcId "URL" (Node.leaf (.s (vpcUrl region v.vpcId)))

/-- The Lambda loop of `main`: the record is appended under its VPC's
`'Lambda Functions'` bucket only when `function_vpc` is truthy and
already a key of the tree (`if function_vpc and function_vpc in tree`);
otherwise the record is not stored anywhere. -/
def addLambda (region : String) (t : RootDict) (f : LambdaRec) : RootDict :=
  match f.vpcId with
  | some v =>
    if v != "" && containsKey t v then
      appendUnder t v "Lambda Functions"
        (Node.dict [(f.functionName, functionInfoNode region f)])
    else t
  | none => t

/-- The load balancer loop of `main`, with the same guard as the Lambda
loop. -/
def addGateway (region : String) (t : RootDict) (g : GatewayRec) : RootDict :=
  match g.vpcId with
  | some v =>
    if v != "" && containsKey t v then
      appendUnder t v "App Gateways"
        (Node.dict [(g.loadBalancerName, tagsNode g.tags),
                    ("URL", Node.leaf (.s (gatewayUrl region g.loadBalancerName)))])
    else t
  | none => t

/-- The API gateway loop of `main`: lazily creates a root-level
`'API Gateways'` list and appends each record there. -/
def addApiGateway (region : String) (t : RootDict) (a : ApiGatewayRec) : RootDict :=
  let t1 := if containsKey t "API Gateways" then t
            else t ++ [("API Gateways", Node.list [])]
  rootAppend t1 "API Gateways"
    (Node.dict [(a.name, Node.dict [("ID", Node.leaf (.s a.apiId)),
                                    ("URL", Node.leaf (.s (apiGatewayUrl region a.apiId)))])])

/-- The EC2 loop of `main`, guarded like the Lambda loop. -/
def addInstance (region : String) (t : RootDict) (i : Ec2Rec) : RootDict :=
  if i.vpcId != "" && containsKey t i.vpcId then
    appendUnder t i.vpcId "EC2 Instances"
      (Node.dict [(i.instanceId, tagsNode i.tags),
                  ("URL", Node.leaf (.s (instanceUrl region i.instanceId)))])
  else t

/-- The S3 loop of `main`: lazily creates a root-level `'S3 Buckets'`
list and appends each bucket there. -/
def addBucket (t : RootDict) (b : BucketRec) : RootDict :=
  let t1 := if containsKey t "S3 Buckets" then t
            else t ++ [("S3 Buckets", Node.list [])]
  rootAppend t1 "S3 Buckets" (Node.dict [(b.name, bucketInfoNode b)])

/-- The build section of `main` (aws-tree.py lines 251-351): folds the
collected records into the root dict, in the program's loop order. -/
def buildTree (region : String) (vpcs : List VpcRec) (lambdas : List LambdaRec)
    (gateways : List GatewayRec) (apiGateways : List ApiGatewayRec)
    (instances : List Ec2Rec) (buckets : List BucketRec)
    (snsTopics : List SnsTopicRec) (sqsQueues : List String)
    (kinesisStreams : List String) (dynamoTables : List String) : RootDict :=
  let t : RootDict := []
  let t := vpcs.foldl (addVpc region) t
  let t := lambdas.foldl (addLambda region) t
  let t := gateways.foldl (addGateway region) t
  let t := apiGateways.foldl (addApiGateway region) t
  let t := instances.foldl (addInstance region) t
  let t := buckets.foldl addBucket t
  let t := setKey t "SNS" (Node.list [])
  let t := snsTopics.foldl (fun t s => rootAppend t "SNS" (snsTopicNode region s)) t
  let t := setKey t "SQS" (Node.list [])
  let t := sqsQueues.foldl
    (fun t q => rootAppend t "SQS" (Node.dict [(q, Node.dict [("URL", Node.leaf (.s q))])])) t
  let t := setKey t "Kinesis" (Node.list [])
  let t := kinesisStreams.foldl
    (fun t s => rootAppend t "Kinesis"
      (Node.dict [(s, Node.dict [("URL", Node.leaf (.s (kinesisUrl region s)))])])) t
  let t := setKey t "DynamoDB" (Node.list [])
  dynamoTables.foldl
    (fun t tb => rootAppend t "DynamoDB"
      (Node.dict [(tb, Node.dict [("URL", Node.leaf (.s (dynamoUrl region tb)))])])) t

/-! ## Claims about the builder -/

/-- Claim C1: a resource record whose parent network key is null is not
attached anywhere: `main`'s Lambda loop appends a function only when
`function_vpc` is truthy and already a key of the tree, so with no VPCs
and a function whose `VpcConfig` has no `VpcId`, the built tree contains
only the always-created root lists and no root-level
`'Lambda Functions'` bucket — the record is silently dropped, contrary
to the claim that it is attached exactly once under a root-level bucket. -/
theorem c1_unparented_lambda_dropped :
    buildTree "r" [] [⟨"my-function", none, "python3.9", []⟩] [] [] [] [] [] [] [] []
      = [("SNS", Node.list []), ("SQS", Node.list []),
         ("Kinesis", Node.list []), ("DynamoDB", Node.list [])]
    ∧ lookupNode
        (buildTree "r" [] [⟨"my-function", none, "python3.9", []⟩] [] [] [] [] [] [] [] [])
        "Lambda Functions" = none :=
  ⟨rfl, rfl⟩

/-- Whether a tree node carries the risk flag: `value.get('is_red',
False)` is truthy, exactly the test the HTML renderer performs. -/
def nodeFlagged (n : Node) : Bool :=
  match dictLookup n "is_red" with
  | some v => truthy v
  | none => false

/-- Modelled from the claim's words, for comparison with the code:
object-storage risk = (encryption disabled) OR (anonymous/public policy
detected), reading the latter as the bucket-ACL AllUsers check the code
stores in `public_access`. -/
def specBucketRisk (b : BucketRec) : Bool :=
  !b.encryptionEnabled || b.publicAccess

/-- Claim C5 counterexample: a bucket with encryption enabled, an
anonymous/public ACL grant detected (`public_access = True`), and no
`'http'` substring in its policy is risky per the claim, but `main` sets
`is_red` only from `not encryption_enabled or http_access`, so the built
`bucket_info` carries no flag. -/
theorem c5_counterexample_public_bucket_not_flagged :
    specBucketRisk ⟨"bucket-a", 3, true, false, true⟩ = true
    ∧ nodeFlagged (bucketInfoNode ⟨"bucket-a", 3, true, false, true⟩) = false :=
  ⟨rfl, rfl⟩

/-- Claim C5, amended: the risk flags are computed in the build step from
the resource's own attributes, but the bucket condition is (encryption
disabled) OR (the bucket policy contains the substring `'http'`); the
anonymous/public ACL result (`public_access`) is stored in the node yet
does not influence the flag.  A Lambda function's flag is
`Runtime != 'nodejs20.x'` (an allow-list containing exactly one
runtime). -/
theorem c5_amended_risk_flags (b : BucketRec) (region : String) (f : LambdaRec) :
    nodeFlagged (bucketInfoNode b) = (!b.encryptionEnabled || b.httpAccess)
    ∧ dictLookup (functionInfoNode region f) "is_red"
        = some (Node.leaf (.b (f.runtime != "nodejs20.x"))) := by
  constructor
  · cases hE : b.encryptionEnabled <;> cases hH : b.httpAccess <;>
      simp [nodeFlagged, bucketInfoNode, dictLookup, lookupNode, truthy, hE, hH]
  · simp [functionInfoNode, dictLookup, lookupNode]

/-- Length of the list found at `t[k1][k2]`, when present. -/
def nestedListLength (t : RootDict) (k1 k2 : String) : Option Nat :=
  match lookupNode t k1 with
  | some (Node.dict es) =>
    match lookupNode es k2 with
    | some (Node.list xs) => some xs.length
    | _ => none
  | _ => none

/-- Claim C6 counterexample: two Lambda records with identical
(parent, kind, id) — same VPC, same function name `"dup"` — but
different runtimes are BOTH appended to the VPC's `'Lambda Functions'`
list, so the built tree holds two entries for that identity, not exactly
one. -/
theorem c6_counterexample_duplicate_kept_twice :
    nestedListLength
      (buildTree "r" [⟨"vpc-1", []⟩]
        [⟨"dup", some "vpc-1", "python3.8", []⟩, ⟨"dup", some "vpc-1", "nodejs20.x", []⟩]
        [] [] [] [] [] [] [] [])
      "vpc-1" "Lambda Functions" = some 2 :=
  rfl

/-- Claim C6, amended: for two records with identical (parent, kind, id)
but different attributes, the builder deterministically keeps BOTH
entries — each append adds a sibling, in input order — never performing
a last-write-wins overwrite and never dropping either record. -/
theorem c6_amended_duplicates_appended_in_order
    (region v : String) (tags : List (String × String)) (f1 f2 : LambdaRec)
    (h1 : f1.vpcId = some v) (h2 : f2.vpcId = some v) (hv : v ≠ "")
    (hS : v ≠ "SNS") (hQ : v ≠ "SQS") (hK : v ≠ "Kinesis") (hD : v ≠ "DynamoDB") :
    lookupNode (buildTree region [⟨v, tags⟩] [f1, f2] [] [] [] [] [] [] [] []) v
      = some (Node.dict
          [("Tags", tagsNode tags),
           ("Lambda Functions", Node.list
              [Node.dict [(f1.functionName, functionInfoNode region f1)],
               Node.dict [(f2.functionName, functionInfoNode region f2)]]),
           ("App Gateways", Node.list []),
           ("API Gateways", Node.list []),
           ("EC2 Instances", Node.list []),
           ("URL", Node.leaf (.s (vpcUrl region v)))]) := by
  have hb : (v != "") = true := bne_iff_ne.mpr hv
  have hbS : (v == "SNS") = false := beq_eq_false_iff_ne.mpr hS
  have hbQ : (v == "SQS") = false := beq_eq_false_iff_ne.mpr hQ
  have hbK : (v == "Kinesis") = false := beq_eq_false_iff_ne.mpr hK
  have hbD : (v == "DynamoDB") = false := beq_eq_false_iff_ne.mpr hD
  simp [buildTree, addVpc, addLambda, vivifyVpc, containsKey, lookupNode,
    setUnder, setInDict, setKey, appendUnder, dictLookup, listAppend,
    defaultVpcNode, rootAppend, h1, h2, hb, hbS, hbQ, hbK, hbD]

/-- Witness for the amended C6 theorem at a concrete duplicate pair. -/
theorem c6_amended_duplicates_appended_in_order_witness :
    (⟨"dup", some "vpc-1", "python3.8", []⟩ : LambdaRec).vpcId = some "vpc-1"
    ∧ (⟨"dup", some "vpc-1", "nodejs20.x", []⟩ : LambdaRec).vpcId = some "vpc-1"
    ∧ "vpc-1" ≠ "" ∧ "vpc-1" ≠ "SNS" ∧ "vpc-1" ≠ "SQS"
    ∧ "vpc-1" ≠ "Kinesis" ∧ "vpc-1" ≠ "DynamoDB"
    ∧ lookupNode
        (buildTree "r" [⟨"vpc-1", []⟩]
          [⟨"dup", some "vpc-1", "python3.8", []⟩, ⟨"dup", some "vpc-1", "nodejs20.x", []⟩]
          [] [] [] [] [] [] [] []) "vpc-1"
      = some (Node.dict
          [("Tags", tagsNode []),
           ("Lambda Functions", Node.list
              [Node.dict [("dup", functionInfoNode "r" ⟨"dup", some "vpc-1", "python3.8", []⟩)],
               Node.dict [("dup", functionInfoNode "r" ⟨"dup", some "vpc-1", "nodejs20.x", []⟩)]]),
           ("App Gateways", Node.list []),
           ("API Gateways", Node.list []),
           ("EC2 Instances", Node.list []),
           ("URL", Node.leaf (.s (vpcUrl "r" "vpc-1")))]) :=
  ⟨rfl, rfl, by decide, by decide, by decide, by decide, by decide,
   c6_amended_duplicates_appended_in_order "r" "vpc-1" []
     ⟨"dup", some "vpc-1", "python3.8", []⟩ ⟨"dup", some "vpc-1", "nodejs20.x", []⟩
     rfl rfl (by decide) (by decide) (by decide) (by decide) (by decide)⟩

/-! ## Error handling: `get_s3_bucket_info` and the absence of recovery in `main` -/

/-- `charsMatch pat l` holds when `pat` is an initial segment of `l`. -/
def charsMatch : List Char → List Char → Bool
  | [], _ => true
  | _ :: _, [] => false
  | a :: as, b :: bs => a == b && charsMatch as bs

/-- Substring test on character lists (Python `needle in haystack`). -/
def hasSub (pat : List Char) : List Char → Bool
  | [] => pat.isEmpty
  | c :: tail => charsMatch pat (c :: tail) || hasSub pat tail

/-- Python `pat in hay` on strings. -/
def strHasSub (hay pat : String) : Bool := hasSub pat.data hay.data

/-- A `botocore` `ClientError`, identified by its error code
(`e.response['Error']['Code']`). -/
structure ClientErr where
  code : String

/-- The grantee URI marking anonymous/public access in a bucket ACL. -/
def allUsersUri : String := "http://acs.amazonaws.com/groups/global/AllUsers"

/-- The raw per-bucket responses consumed by `get_s3_bucket_info`:
`KeyCount`, the ACL grantee URIs, and the (fallible) policy and
encryption lookups. -/
structure BucketFetch where
  name : String
  keyCount : Int
  grantUris : List (Option String)
  policyRes : Except ClientErr String
  encRes : Except ClientErr Unit

/-- The `get_bucket_policy` try/except of `get_s3_bucket_info`: a
`NoSuchBucketPolicy` error means no HTTP access; any other `ClientError`
is re-raised. -/
def httpAccessRes : Except ClientErr String → Except ClientErr Bool
  | .ok policy => .ok (strHasSub policy "http")
  | .error e => if e.code == "NoSuchBucketPolicy" then .ok false else .error e

/-- The `get_bucket_encryption` try/except of `get_s3_bucket_info`: a
`ServerSideEncryptionConfigurationNotFoundError` means encryption is
disabled; any other `ClientError` is re-raised. -/
def encEnabledRes : Except ClientErr Unit → Except ClientErr Bool
  | .ok _ => .ok true
  | .error e =>
    if e.code == "ServerSideEncryptionConfigurationNotFoundError" then .ok false
    else .error e

/-- Embedding of `get_s3_bucket_info` (aws-tree.py lines 57-86): object
count, public-ACL check, HTTP-policy check, encryption check; an
unanticipated `ClientError` in either fallible lookup propagates to the
caller. -/
def get_s3_bucket_info (b : BucketFetch) :
    Except ClientErr (Int × Bool × Bool × Bool) :=
  let object_count := b.keyCount
  let public_access := b.grantUris.any fun u => u == some allUsersUri
  match httpAccessRes b.policyRes with
  | .error e => .error e
  | .ok http_access =>
    match encEnabledRes b.encRes with
    | .error e => .error e
    | .ok encryption_enabled =>
      .ok (object_count, public_access, http_access, encryption_enabled)

/-- The S3 loop of `main` calls `get_s3_bucket_info` for every bucket
with no surrounding try/except: the first propagating `ClientError`
aborts the whole loop. -/
def collectBuckets : List BucketFetch → Except ClientErr (List BucketRec)
  | [] => .ok []
  | b :: rest =>
    match get_s3_bucket_info b with
    | .error e => .error e
    | .ok (c, p, h, enc) =>
      match collectBuckets rest with
      | .error e => .error e
      | .ok rs => .ok (⟨b.name, c, p, h, enc⟩ :: rs)

/-- The pipeline of `main` around the S3 kind: there is no handler
anywhere in `main`, so a `ClientError` escaping `get_s3_bucket_info`
aborts the run before `clean_tree` and before any output is written
(`.error e` — a Python traceback and a non-zero exit status); only on
`.ok` is the pruned tree produced and the process able to exit zero. -/
def runPipeline (region : String) (vpcs : List VpcRec) (lambdas : List LambdaRec)
    (gateways : List GatewayRec) (apiGateways : List ApiGatewayRec)
    (instances : List Ec2Rec) (bucketFetches : List BucketFetch)
    (snsTopics : List SnsTopicRec) (sqsQueues : List String)
    (kinesisStreams : List String) (dynamoTables : List String) :
    Except ClientErr Node :=
  match collectBuckets bucketFetches with
  | .error e => .error e
  | .ok buckets =>
    .ok (clean_tree (Node.dict (buildTree region vpcs lambdas gateways apiGateways
      instances buckets snsTopics sqsQueues kinesisStreams dynamoTables)))

/-- Claim C3: an unanticipated provider error for the S3 kind (here an
`AccessDenied` `ClientError` from the per-bucket policy fetch) is NOT
recovered locally: `get_s3_bucket_info` re-raises it, `main` has no
handler, and the run aborts with no output and a non-zero exit — instead
of the claimed zero-records-for-the-kind, warning, output, and exit
zero.  Even with another perfectly healthy bucket and a VPC present, the
pipeline result is the error, not a tree. -/
theorem c3_s3_client_error_aborts_pipeline :
    runPipeline "r" [⟨"vpc-1", []⟩] [] [] [] []
      [⟨"bucket-a", 5, [], .error ⟨"AccessDenied"⟩, .ok ()⟩,
       ⟨"bucket-b", 1, [], .ok "\x7b\x7d", .ok ()⟩]
      [] [] [] []
      = .error ⟨"AccessDenied"⟩ :=
  rfl

/-! ## Renderers -/

/-- Decimal digit character. -/
def digitChar (n : Nat) : Char := Char.ofNat (48 + n)

/-- Decimal digits of a natural number, most significant first
(fuel-driven so the definition is structural and kernel-reducible). -/
def natDigitsGo : Nat → Nat → List Char
  | 0, _ => []
  | fuel + 1, n =>
    if n < 10 then [digitChar n]
    else natDigitsGo fuel (n / 10) ++ [digitChar (n % 10)]

/-- Python `str` of a natural number. -/
def natDigits (n : Nat) : List Char := natDigitsGo (n + 1) n

/-- Python `str` of an integer. -/
def pyIntStr (i : Int) : String :=
  if i < 0 then "-" ++ String.mk (natDigits i.natAbs) else String.mk (natDigits i.natAbs)

/-- Python `str` of a scalar (`str(True) = "True"`). -/
def scalarStr : Scalar → String
  | .s v => v
  | .b true => "True"
  | .b false => "False"
  | .i v => pyIntStr v

/-- Python `repr` of a scalar, as used for elements of printed
containers (string escaping is not modelled: the data rendered this way
carries no quotes or escapes). -/
def scalarRepr : Scalar → String
  | .s v => "\x27" ++ v ++ "\x27"
  | .b v => scalarStr (.b v)
  | .i v => scalarStr (.i v)

mutual
/-- Python `str` of a tree value: strings print bare, containers print
in `repr` style. -/
def pyStr : Node → String
  | .leaf v => scalarStr v
  | .list xs => "[" ++ pyReprList xs ++ "]"
  | .dict es => "\x7b" ++ pyReprEntries es ++ "\x7d"

/-- Python `repr` of a tree value. -/
def pyRepr : Node → String
  | .leaf v => scalarRepr v
  | .list xs => "[" ++ pyReprList xs ++ "]"
  | .dict es => "\x7b" ++ pyReprEntries es ++ "\x7d"

def pyReprList : List Node → String
  | [] => ""
  | [x] => pyRepr x
  | x :: y :: rest => pyRepr x ++ ", " ++ pyReprList (y :: rest)

def pyReprEntries : List (String × Node) → String
  | [] => ""
  | [(k, v)] => "\x27" ++ k ++ "\x27: " ++ pyRepr v
  | (k, v) :: e :: rest => "\x27" ++ k ++ "\x27: " ++ pyRepr v ++ ", " ++ pyReprEntries (e :: rest)
end

/-- `"|  " * level`, the per-depth prefix of the ASCII renderer. -/
def levelIndent : Nat → String
  | 0 => ""
  | n + 1 => "|  " ++ levelIndent n

/-- The ANSI emphasis start sequence `"\033[91m"` of `generate_ascii_tree`. -/
def colorStart : String := "\x1b[91m"

/-- The ANSI reset sequence `"\033[0m"`. -/
def colorReset : String := "\x1b[0m"

/-- Python `value == ["None"]`, the Triggers special case of `traverse`. -/
def isNoneList : Node → Bool
  | .list [.leaf (.s v)] => v == "None"
  | _ => false

mutual
/-- Embedding of the inner `traverse` of `generate_ascii_tree`
(aws-tree.py lines 188-208): dict nodes are rendered entry by entry; any
other node prints one `str(node)` line. -/
def traverseNode : Node → Nat → String
  | .dict es, level => traverseEntries es level
  | .list xs, level => levelIndent level ++ "+--" ++ pyStr (.list xs) ++ "\n"
  | .leaf v, level => levelIndent level ++ "+--" ++ pyStr (.leaf v) ++ "\n"

/-- The per-entry body of `traverse`: `color` is the emphasis sequence,
set only when the key is literally `'is_red'` with a truthy value, and
`reset` is the matching reset sequence exactly when `color` is non-empty
(`reset = "\033[0m" if color else ""`; the start sequence is a non-empty
string, so its truthiness equals the condition that produced it); the
branches follow the Python elif chain (Triggers `["None"]` special case,
URL-with-string, dict, list, scalar with the `is_red` key suppressed). -/
def traverseEntries : List (String × Node) → Nat → String
  | [], _ => ""
  | (key, value) :: rest, level =>
    let color := if key == "is_red" && truthy value then colorStart else ""
    let reset := if key == "is_red" && truthy value then colorReset else ""
    let piece :=
      if key == "Triggers" && isNoneList value then
        levelIndent level ++ "+--" ++ key ++ "\n"
      else
        match value with
        | .dict d =>
          levelIndent level ++ "+--" ++ color ++ key ++ reset ++ "\n"
            ++ traverseEntries d (level + 1)
        | .list items =>
          levelIndent level ++ "+--" ++ key ++ "\n" ++ traverseList items (level + 1)
        | .leaf v =>
          if key == "is_red" then ""
          else levelIndent level ++ "+--" ++ color ++ key ++ ": "
            ++ scalarStr v ++ reset ++ "\n"
    piece ++ traverseEntries rest level

def traverseList : List Node → Nat → String
  | [], _ => ""
  | x :: rest, level => traverseNode x level ++ traverseList rest level
end

/-- Embedding of `generate_ascii_tree` (aws-tree.py lines 185-211). -/
def generate_ascii_tree (t : Node) : String := traverseNode t 0

mutual
/-- Embedding of the inner `generate_html_node` of `generate_html_tree`
(aws-tree.py lines 140-163): non-dict nodes print a bare `<li>` with
`str(node)`. -/
def generateHtmlNode : Node → String
  | .dict es => generateHtmlEntries es
  | .list xs => "<li>" ++ pyStr (.list xs) ++ "</li>"
  | .leaf v => "<li>" ++ pyStr (.leaf v) ++ "</li>"

/-- The per-entry body of `generate_html_node`, following the Python
elif chain: URL-with-string becomes a hyperlink; a dict value becomes a
toggleable parent whose span class is `'parent red'` exactly when the
value's own `is_red` entry is truthy; a list value becomes a plain
toggleable parent; other scalars print `key: value` (with the `is_red`
key suppressed, and a class attribute that is always empty there). -/
def generateHtmlEntries : List (String × Node) → String
  | [] => ""
  | (key, value) :: rest =>
    let piece :=
      match value with
      | .leaf (.s s) =>
        if key == "URL" then
          "<li><a href=\x22" ++ s ++ "\x22 target=\x22_blank\x22>" ++ key ++ "</a></li>"
        else if key == "is_red" then ""
        else "<li class=\x27\x27>" ++ key ++ ": " ++ s ++ "</li>"
      | .dict d =>
        let cls := if nodeFlagged (.dict d) then "red" else ""
        "<li><span class=\x27parent " ++ cls ++ "\x27 onclick=\x27toggleNode(this)\x27>"
          ++ key ++ "</span>" ++ "<ul class=\x27children\x27>"
          ++ generateHtmlEntries d ++ "</ul></li>"
      | .list items =>
        "<li><span class=\x27parent\x27 onclick=\x27toggleNode(this)\x27>"
          ++ key ++ "</span>" ++ "<ul class=\x27children\x27>"
          ++ generateHtmlList items ++ "</ul></li>"
      | .leaf v =>
        if key == "is_red" then ""
        else "<li class=\x27\x27>" ++ key ++ ": " ++ scalarStr v ++ "</li>"
    piece ++ generateHtmlEntries rest

def generateHtmlList : List Node → String
  | [] => ""
  | x :: rest => generateHtmlNode x ++ generateHtmlList rest
end

/-- Claim C2: the two renderers do NOT agree on risk emphasis.  For a
node carrying the risk flag (`is_red` true), the HTML renderer emits the
distinguishing `'parent red'` class on the node's label, but the ASCII
renderer emits no emphasis sequence at all: its `color` marker is
non-empty only when the traversed key is literally `'is_red'`, and those
lines are exactly the ones it suppresses, so the flagged node's label is
printed unmarked (no `"\x1b"` anywhere in the output). -/
theorem c2_risk_marker_html_only :
    strHasSub (generateHtmlNode (Node.dict [("f", Node.dict
        [("is_red", Node.leaf (.b true)), ("Runtime", Node.leaf (.s "python3.9"))])]))
      "parent red" = true
    ∧ generate_ascii_tree (Node.dict [("f", Node.dict
        [("is_red", Node.leaf (.b true)), ("Runtime", Node.leaf (.s "python3.9"))])])
      = "+--f\n|  +--Runtime: python3.9\n"
    ∧ strHasSub (generate_ascii_tree (Node.dict [("f", Node.dict
        [("is_red", Node.leaf (.b true)), ("Runtime", Node.leaf (.s "python3.9"))])]))
      "\x1b" = false :=
  ⟨rfl, rfl, rfl⟩

/-- Claim C10: for a Lambda function with zero event source mappings,
`get_lambda_triggers` returns the one-element list `["None"]` rather
than an empty list; a dict entry holding that value is a non-empty list,
so `clean_tree` always keeps it; and the ASCII renderer special-cases
exactly this value, printing a bare `Triggers` line with no children. -/
theorem c10_lambda_triggers_none_sentinel :
    get_lambda_triggers [] = [Node.leaf (.s "None")]
    ∧ (∀ (k : String) (rest : List (String × Node)),
        clean_entries ((k, Node.list (get_lambda_triggers [])) :: rest)
          = (k, Node.list (get_lambda_triggers [])) :: clean_entries rest)
    ∧ (∀ (level : Nat) (rest : List (String × Node)),
        traverseEntries (("Triggers", Node.list (get_lambda_triggers [])) :: rest) level
          = levelIndent level ++ "+--" ++ "Triggers" ++ "\n" ++ traverseEntries rest level) := by
  refine ⟨rfl, ?_, ?_⟩
  · intro k rest
    simp [clean_entries, clean_tree, get_lambda_triggers, isEmptyNode]
  · intro level rest
    simp [traverseEntries, get_lambda_triggers, isNoneList, truthy]

/-! ## Claim C8: balanced emphasis in the ASCII output -/

/-- A character that may appear in a plain segment of an output line:
neither the escape character that opens an ANSI sequence nor a newline. -/
def lineOkChar (c : Char) : Bool := !(c == '\x1b') && !(c == '\n')

/-- A plain (escape-free, newline-free) character segment. -/
def lineOk (l : List Char) : Bool := l.all lineOkChar

/-- The emphasis start sequence as characters. -/
def startMark : List Char := colorStart.data

/-- The reset sequence as characters. -/
def resetMark : List Char := colorReset.data

/-- The shape of a well-formed ASCII rendering: a sequence of
newline-terminated lines, each either free of escape characters or
consisting of a plain segment, the emphasis start sequence, a plain
emphasized segment, and the matching reset sequence — still on the same
line, before its terminating newline.  In particular every start
sequence is closed by a reset on its own line and no emphasis is left
unterminated at the end of the output. -/
inductive BalancedLines : List Char → Prop where
  | nil : BalancedLines []
  | plain (line rest : List Char) : lineOk line = true → BalancedLines rest →
      BalancedLines (line ++ ('\n' :: rest))
  | emph (a b rest : List Char) : lineOk a = true → lineOk b = true →
      BalancedLines rest →
      BalancedLines (a ++ (startMark ++ (b ++ (resetMark ++ ('\n' :: rest)))))

theorem lineOk_append (a b : List Char) : lineOk (a ++ b) = (lineOk a && lineOk b) :=
  List.all_append

theorem BalancedLines.append {x y : List Char}
    (hx : BalancedLines x) (hy : BalancedLines y) : BalancedLines (x ++ y) := by
  induction hx with
  | nil => simpa using hy
  | plain line rest hok hrest ih =>
    have he : (line ++ ('\n' :: rest)) ++ y = line ++ ('\n' :: (rest ++ y)) := by simp
    rw [he]
    exact .plain line (rest ++ y) hok ih
  | emph a b rest ha hb hrest ih =>
    have he : (a ++ (startMark ++ (b ++ (resetMark ++ ('\n' :: rest))))) ++ y
        = a ++ (startMark ++ (b ++ (resetMark ++ ('\n' :: (rest ++ y))))) := by simp
    rw [he]
    exact .emph a b (rest ++ y) ha hb ih

/-- A plain line followed by further balanced output is balanced. -/
theorem balanced_plain_cat (s : String) (tail : List Char)
    (h : lineOk s.data = true) (ht : BalancedLines tail) :
    BalancedLines ((s ++ "\n").data ++ tail) := by
  rw [String.data_append, List.append_assoc]
  exact .plain s.data tail h ht

/-- An emphasized line (plain prefix, start mark, plain key, reset mark,
newline) followed by further balanced output is balanced. -/
theorem balanced_emph_cat (s k : String) (tail : List Char)
    (hs : lineOk s.data = true) (hk : lineOk k.data = true)
    (ht : BalancedLines tail) :
    BalancedLines ((s ++ colorStart ++ k ++ colorReset ++ "\n").data ++ tail) := by
  have he : (s ++ colorStart ++ k ++ colorReset ++ "\n").data ++ tail
      = s.data ++ (startMark ++ (k.data ++ (resetMark ++ ('\n' :: tail)))) := by
    simp [String.data_append, startMark, resetMark, List.append_assoc]
  rw [he]
  exact .emph s.data k.data tail hs hk ht

/-- A string free of escape and newline characters. -/
def cleanStr (s : String) : Bool := lineOk s.data

mutual
/-- Every string stored in the tree (keys and string leaves) is free of
escape and newline characters — true of all data the builder stores. -/
def escFree : Node → Bool
  | .leaf (.s v) => cleanStr v
  | .leaf (.b _) => true
  | .leaf (.i _) => true
  | .list xs => escFreeList xs
  | .dict es => escFreeEntries es

def escFreeList : List Node → Bool
  | [] => true
  | x :: rest => escFree x && escFreeList rest

def escFreeEntries : List (String × Node) → Bool
  | [] => true
  | (k, v) :: rest => cleanStr k && escFree v && escFreeEntries rest
end

theorem digitChar_lineOk (n : Nat) (h : n < 10) : lineOkChar (digitChar n) = true := by
  interval_cases n <;> decide

theorem natDigitsGo_lineOk : ∀ fuel n, lineOk (natDigitsGo fuel n) = true := by
  intro fuel
  induction fuel with
  | zero => intro n; rfl
  | succ f ih =>
    intro n
    rw [natDigitsGo]
    split
    · next h => simp [lineOk, digitChar_lineOk n h]
    · next h =>
      have h10 : n % 10 < 10 := Nat.mod_lt _ (by omega)
      rw [lineOk_append, ih (n / 10)]
      simp [lineOk, digitChar_lineOk _ h10]

theorem pyIntStr_lineOk (i : Int) : lineOk (pyIntStr i).data = true := by
  rw [pyIntStr]
  split
  · rw [String.data_append, lineOk_append]
    simp [natDigits, natDigitsGo_lineOk]
    decide
  · simpa [natDigits] using natDigitsGo_lineOk _ i.natAbs

theorem scalarStr_lineOk (v : Scalar) (h : escFree (.leaf v) = true) :
    lineOk (scalarStr v).data = true := by
  cases v with
  | s w => simpa [escFree, cleanStr] using h
  | b w => cases w <;> decide
  | i w => exact pyIntStr_lineOk w

theorem scalarRepr_lineOk (v : Scalar) (h : escFree (.leaf v) = true) :
    lineOk (scalarRepr v).data = true := by
  cases v with
  | s w =>
    rw [scalarRepr, String.data_append, String.data_append, lineOk_append, lineOk_append]
    have hw : lineOk w.data = true := by simpa [escFree, cleanStr] using h
    simp [hw]
    decide
  | b w => cases w <;> decide
  | i w => exact pyIntStr_lineOk w

mutual
theorem pyStr_lineOk : ∀ n, escFree n = true → lineOk (pyStr n).data = true
  | .leaf v, h => scalarStr_lineOk v h
  | .list xs, h => by
    rw [pyStr, String.data_append, String.data_append, lineOk_append, lineOk_append,
      pyReprList_lineOk xs h]
    decide
  | .dict es, h => by
    rw [pyStr, String.data_append, String.data_append, lineOk_append, lineOk_append,
      pyReprEntries_lineOk es h]
    decide

theorem pyRepr_lineOk : ∀ n, escFree n = true → lineOk (pyRepr n).data = true
  | .leaf v, h => scalarRepr_lineOk v h
  | .list xs, h => by
    rw [pyRepr, String.data_append, String.data_append, lineOk_append, lineOk_append,
      pyReprList_lineOk xs h]
    decide
  | .dict es, h => by
    rw [pyRepr, String.data_append, String.data_append, lineOk_append, lineOk_append,
      pyReprEntries_lineOk es h]
    decide

theorem pyReprList_lineOk :
    ∀ xs, escFreeList xs = true → lineOk (pyReprList xs).data = true
  | [], _ => rfl
  | [x], h => by
    rw [pyReprList]
    exact pyRepr_lineOk x (by simpa [escFreeList] using h)
  | x :: y :: rest, h => by
    have hx : escFree x = true := by
      simp [escFreeList, Bool.and_eq_true] at h; exact h.1
    have hyr : escFreeList (y :: rest) = true := by
      simp [escFreeList, Bool.and_eq_true] at h
      simp [escFreeList, Bool.and_eq_true, h.2.1, h.2.2]
    rw [pyReprList, String.data_append, String.data_append, lineOk_append, lineOk_append,
      pyRepr_lineOk x hx, pyReprList_lineOk (y :: rest) hyr]
    decide

theorem pyReprEntries_lineOk :
    ∀ es, escFreeEntries es = true → lineOk (pyReprEntries es).data = true
  | [], _ => rfl
  | [(k, v)], h => by
    simp only [escFreeEntries, Bool.and_eq_true] at h
    obtain ⟨⟨hk, hv⟩, -⟩ := h
    rw [pyReprEntries]
    rw [String.data_append, String.data_append, String.data_append,
      lineOk_append, lineOk_append, lineOk_append, pyRepr_lineOk v hv]
    have hk2 : lineOk k.data = true := by simpa [cleanStr] using hk
    simp [hk2]
    decide
  | (k, v) :: e :: rest, h => by
    simp only [escFreeEntries, Bool.and_eq_true] at h
    obtain ⟨⟨hk, hv⟩, hr0⟩ := h
    have hr : escFreeEntries (e :: rest) = true := by
      cases e with
      | mk k2 v2 =>
        simp only [escFreeEntries, Bool.and_eq_true] at hr0
        simp [escFreeEntries, Bool.and_eq_true, hr0]
    rw [pyReprEntries]
    rw [String.data_append, String.data_append, String.data_append, String.data_append,
      String.data_append, lineOk_append, lineOk_append, lineOk_append, lineOk_append,
      lineOk_append, pyRepr_lineOk v hv, pyReprEntries_lineOk (e :: rest) hr]
    have hk2 : lineOk k.data = true := by simpa [cleanStr] using hk
    simp [hk2]
    decide
end

theorem levelIndent_lineOk : ∀ n, lineOk (levelIndent n).data = true
  | 0 => rfl
  | n + 1 => by
    rw [levelIndent, String.data_append, lineOk_append, levelIndent_lineOk n]
    decide

mutual
theorem traverseNode_balanced :
    ∀ t, escFree t = true → ∀ level, BalancedLines (traverseNode t level).data
  | .dict es, h, level => traverseEntries_balanced es h level
  | .list xs, h, level => by
    show BalancedLines (levelIndent level ++ "+--" ++ pyStr (.list xs) ++ "\n").data
    have hline : lineOk (levelIndent level ++ "+--" ++ pyStr (.list xs)).data = true := by
      rw [String.data_append, String.data_append, lineOk_append, lineOk_append,
        levelIndent_lineOk level, pyStr_lineOk (Node.list xs) h]
      decide
    have hb := balanced_plain_cat (levelIndent level ++ "+--" ++ pyStr (.list xs)) [] hline .nil
    rwa [List.append_nil] at hb
  | .leaf v, h, level => by
    show BalancedLines (levelIndent level ++ "+--" ++ pyStr (.leaf v) ++ "\n").data
    have hline : lineOk (levelIndent level ++ "+--" ++ pyStr (.leaf v)).data = true := by
      rw [String.data_append, String.data_append, lineOk_append, lineOk_append,
        levelIndent_lineOk level, pyStr_lineOk (Node.leaf v) h]
      decide
    have hb := balanced_plain_cat (levelIndent level ++ "+--" ++ pyStr (.leaf v)) [] hline .nil
    rwa [List.append_nil] at hb

theorem traverseEntries_balanced :
    ∀ es, escFreeEntries es = true → ∀ level, BalancedLines (traverseEntries es level).data
  | [], _, _ => .nil
  | (key, value) :: rest, h, level => by
    simp only [escFreeEntries, Bool.and_eq_true] at h
    obtain ⟨⟨hk0, hv⟩, hr⟩ := h
    have hk : lineOk key.data = true := by simpa [cleanStr] using hk0
    have ihrest := traverseEntries_balanced rest hr level
    by_cases hT : (key == "Triggers" && isNoneList value) = true
    · rw [show traverseEntries ((key, value) :: rest) level
          = (levelIndent level ++ "+--" ++ key ++ "\n") ++ traverseEntries rest level from by
        rw [traverseEntries.eq_def]; simp [hT]]
      rw [String.data_append]
      refine balanced_plain_cat _ _ ?_ ihrest
      simp only [String.data_append, lineOk_append]
      rw [levelIndent_lineOk level, hk]
      decide
    · have hT' : (key == "Triggers" && isNoneList value) = false := by simpa using hT
      cases value with
      | dict d =>
        have hd : escFreeEntries d = true := by simpa [escFree] using hv
        have ihd := traverseEntries_balanced d hd (level + 1)
        by_cases hC : (key == "is_red" && truthy (Node.dict d)) = true
        · rw [show traverseEntries ((key, Node.dict d) :: rest) level
              = ((levelIndent level ++ "+--" ++ colorStart ++ key ++ colorReset ++ "\n")
                  ++ traverseEntries d (level + 1)) ++ traverseEntries rest level from by
            rw [traverseEntries.eq_def]; simp [hT', hC]]
          rw [String.data_append, String.data_append, List.append_assoc]
          refine balanced_emph_cat _ _ _ ?_ hk (ihd.append ihrest)
          rw [String.data_append, lineOk_append, levelIndent_lineOk level]
          decide
        · have hC' : (key == "is_red" && truthy (Node.dict d)) = false := by simpa using hC
          rw [show traverseEntries ((key, Node.dict d) :: rest) level
              = ((levelIndent level ++ "+--" ++ "" ++ key ++ "" ++ "\n")
                  ++ traverseEntries d (level + 1)) ++ traverseEntries rest level from by
            rw [traverseEntries.eq_def]; simp [hT', hC']]
          rw [String.data_append, String.data_append, List.append_assoc]
          refine balanced_plain_cat _ _ ?_ (ihd.append ihrest)
          simp only [String.data_append, lineOk_append]
          rw [levelIndent_lineOk level, hk]
          decide
      | list xs =>
        have hxs : escFreeList xs = true := by simpa [escFree] using hv
        have ihxs := traverseList_balanced xs hxs (level + 1)
        rw [show traverseEntries ((key, Node.list xs) :: rest) level
            = ((levelIndent level ++ "+--" ++ key ++ "\n")
                ++ traverseList xs (level + 1)) ++ traverseEntries rest level from by
          rw [traverseEntries.eq_def]; simp [hT']]
        rw [String.data_append, String.data_append, List.append_assoc]
        refine balanced_plain_cat _ _ ?_ (ihxs.append ihrest)
        simp only [String.data_append, lineOk_append]
        rw [levelIndent_lineOk level, hk]
        decide
      | leaf v =>
        by_cases hred : (key == "is_red") = true
        · rw [show traverseEntries ((key, Node.leaf v) :: rest) level
              = traverseEntries rest level from by
            rw [traverseEntries.eq_def]; simp [hT', hred]]
          exact ihrest
        · have hred' : (key == "is_red") = false := by simpa using hred
          rw [show traverseEntries ((key, Node.leaf v) :: rest) level
              = (levelIndent level ++ "+--" ++ "" ++ key ++ ": " ++ scalarStr v ++ "" ++ "\n")
                  ++ traverseEntries rest level from by
            rw [traverseEntries.eq_def]; simp [hT', hred']]
          rw [String.data_append]
          refine balanced_plain_cat _ _ ?_ ihrest
          simp only [String.data_append, lineOk_append]
          rw [levelIndent_lineOk level, hk, scalarStr_lineOk v hv]
          decide

theorem traverseList_balanced :
    ∀ xs, escFreeList xs = true → ∀ level, BalancedLines (traverseList xs level).data
  | [], _, _ => .nil
  | x :: rest, h, level => by
    simp only [escFreeList, Bool.and_eq_true] at h
    show BalancedLines ((traverseNode x level ++ traverseList rest level)).data
    rw [String.data_append]
    exact (traverseNode_balanced x h.1 level).append (traverseList_balanced rest h.2 level)
end

/-- Claim C8: for every tree whose stored strings are free of escape and
newline characters (true of everything the builder stores), the ASCII
output decomposes into newline-terminated lines in which every emphasis
start sequence is followed, on the same line, by the matching reset
sequence — no emphasis is ever left unterminated. -/
theorem c8_ascii_emphasis_balanced (t : Node) (h : escFree t = true) :
    BalancedLines (generate_ascii_tree t).data :=
  traverseNode_balanced t h 0

/-- Witness for C8 at a tree that actually produces an emphasized line
(an `'is_red'` key holding a truthy dict value). -/
theorem c8_ascii_emphasis_balanced_witness :
    escFree (Node.dict [("is_red", Node.dict [("k", Node.leaf (.s "v"))])]) = true
    ∧ BalancedLines (generate_ascii_tree
        (Node.dict [("is_red", Node.dict [("k", Node.leaf (.s "v"))])])).data :=
  ⟨by decide, c8_ascii_emphasis_balanced _ (by decide)⟩
